import Mathlib

/-!
Verification of the golang-tftp packet codec and read-transfer state machine.

Shallow embedding of the TFTP server sources:

* `pkg/tftp/packet.go` — the packet codec.  Go byte slices are embedded as
  `List Nat` (each element a byte value); Go strings are byte strings, so the
  `Filename`, `Mode` and `Message` fields are also `List Nat`.  Go's typed
  errors (`ErrInvalidPacket`, `ErrPacketTooShort`, `ErrInvalidOpcode`,
  `ErrMissingNullTerm`) become the enumeration `TFTPErr`, and each
  `Parse*` function returns `Except TFTPErr _`.  A Go `panic` is embedded as
  `Option.none`.
* `main.go` (the server) — the `serveReadRequest` transfer loop, embedded as a
  state function over the file contents and an explicit schedule of network
  events, and the request-validation / path-containment phase, embedded over a
  segment-list model of Go's lexical `path/filepath` operations.
-/

namespace Tftp

/-- Bytes of a Go string literal (Go strings are byte strings; all literals in
this code base are ASCII, so `Char.toNat` is the byte value). -/
def strBytes (s : String) : List Nat :=
  s.data.map Char.toNat

/-- `binary.BigEndian.PutUint16`: the two big-endian bytes of a 16-bit value. -/
def u16be (v : Nat) : List Nat :=
  [v / 256 % 256, v % 256]

/-- `binary.BigEndian.Uint16`: read two bytes big-endian. -/
def be16 (a b : Nat) : Nat :=
  a * 256 + b

/-- Opcodes (`RRQ = 1`, `WRQ = 2`, `DATA = 3`, `ACK = 4`, `ERROR = 5`). -/
def RRQ : Nat := 1
def WRQ : Nat := 2
def DATA : Nat := 3
def ACK : Nat := 4
def ERROR : Nat := 5

/-- Error codes from `packet.go`. -/
def ErrNotDefined : Nat := 0
def ErrFileNotFound : Nat := 1
def ErrAccessViolation : Nat := 2

/-- Transfer mode literals. -/
def ModeNetascii : List Nat := strBytes "netascii"
def ModeOctet : List Nat := strBytes "octet"
def ModeMail : List Nat := strBytes "mail"

/-- The four error values declared in `packet.go`. -/
inductive TFTPErr
  | invalidPacket
  | packetTooShort
  | invalidOpcode
  | missingNullTerm
deriving DecidableEq, Repr

/-- `ReadRequest`/`WriteRequest` payload: filename and mode byte strings. -/
structure ReadRequest where
  filename : List Nat
  mode : List Nat
deriving DecidableEq, Repr

/-- `DataPacket`: block number (a uint16, embedded as `Nat < 65536`) and data. -/
structure DataPacket where
  block : Nat
  data : List Nat
deriving DecidableEq, Repr

/-- `AckPacket`. -/
structure AckPacket where
  block : Nat
deriving DecidableEq, Repr

/-- `ErrorPacket`: code and message byte string. -/
structure ErrorPacket where
  code : Nat
  message : List Nat
deriving DecidableEq, Repr

/-- `isValidMode` from `packet.go`. -/
def isValidMode (mode : List Nat) : Bool :=
  mode = ModeNetascii ∨ mode = ModeOctet ∨ mode = ModeMail

/-- `packRQ` from `packet.go`: `opcode(2) · filename · 0 · mode · 0`.
Go panics on an unrecognised mode; the panic is embedded as `none`. -/
def packRQ (opcode : Nat) (filename mode : List Nat) : Option (List Nat) :=
  if isValidMode mode then
    some (u16be opcode ++ filename ++ [0] ++ mode ++ [0])
  else
    none

/-- Index of the first zero byte (the scan loops in `unpackRQ`). -/
def findZero : List Nat → Option Nat
  | [] => none
  | b :: rest => if b = 0 then some 0 else (findZero rest).map (· + 1)

/-- `unpackRQ` from `packet.go`: split `packet[2:]` at its first NUL into the
filename, then split the remainder at its first NUL into the mode. -/
def unpackRQ (packet : List Nat) : Except TFTPErr (List Nat × List Nat) :=
  if packet.length < 4 then .error .packetTooShort
  else
    let data := packet.drop 2
    match findZero data with
    | none => .error .missingNullTerm
    | some filenameEnd =>
      if filenameEnd + 1 ≥ data.length then .error .invalidPacket
      else
        let modeData := data.drop (filenameEnd + 1)
        match findZero modeData with
        | none => .error .missingNullTerm
        | some modeEnd => .ok (data.take filenameEnd, modeData.take modeEnd)

/-- `ParseRRQ`: opcode check (`len < 2` or wrong tag gives `ErrInvalidOpcode`),
then `unpackRQ`. -/
def parseRRQ (p : List Nat) : Except TFTPErr ReadRequest :=
  match p with
  | a :: b :: _ =>
    if be16 a b ≠ RRQ then .error .invalidOpcode
    else (unpackRQ p).map fun fm => ⟨fm.1, fm.2⟩
  | _ => .error .invalidOpcode

/-- `ParseWRQ`: same as `ParseRRQ` with the `WRQ` tag. -/
def parseWRQ (p : List Nat) : Except TFTPErr ReadRequest :=
  match p with
  | a :: b :: _ =>
    if be16 a b ≠ WRQ then .error .invalidOpcode
    else (unpackRQ p).map fun fm => ⟨fm.1, fm.2⟩
  | _ => .error .invalidOpcode

/-- `PackDATA`: `opcode(2)=03 · block(2) · data`. -/
def packDATA (block : Nat) (data : List Nat) : List Nat :=
  u16be DATA ++ u16be block ++ data

/-- `ParseDATA`: length `< 4` is `ErrPacketTooShort`, wrong tag is
`ErrInvalidOpcode`, otherwise block is bytes `[2:4]` and data the rest. -/
def parseDATA (p : List Nat) : Except TFTPErr DataPacket :=
  match p with
  | a :: b :: c :: d :: rest =>
    if be16 a b ≠ DATA then .error .invalidOpcode
    else .ok ⟨be16 c d, rest⟩
  | _ => .error .packetTooShort

/-- `PackACK`: `opcode(2)=04 · block(2)`. -/
def packACK (block : Nat) : List Nat :=
  u16be ACK ++ u16be block

/-- `ParseACK`: length `< 4` is `ErrPacketTooShort`, wrong tag is
`ErrInvalidOpcode`, otherwise block is bytes `[2:4]`. -/
def parseACK (p : List Nat) : Except TFTPErr AckPacket :=
  match p with
  | a :: b :: c :: d :: _ =>
    if be16 a b ≠ ACK then .error .invalidOpcode
    else .ok ⟨be16 c d⟩
  | _ => .error .packetTooShort

/-- `PackERROR`: `opcode(2)=05 · code(2) · msg · 0`. -/
def packERROR (code : Nat) (msg : List Nat) : List Nat :=
  u16be ERROR ++ u16be code ++ msg ++ [0]

/-- `ParseERROR`: length `< 5` is `ErrPacketTooShort`, wrong tag is
`ErrInvalidOpcode`, a nonzero final byte is `ErrMissingNullTerm`, otherwise
the message is bytes `[4 : len-1]`. -/
def parseERROR (p : List Nat) : Except TFTPErr ErrorPacket :=
  if p.length < 5 then .error .packetTooShort
  else
    match p with
    | a :: b :: c :: d :: rest =>
      if be16 a b ≠ ERROR then .error .invalidOpcode
      else if p.getLast? ≠ some 0 then .error .missingNullTerm
      else .ok ⟨be16 c d, rest.dropLast⟩
    | _ => .error .packetTooShort

/-! ## The read-transfer state machine (`serveReadRequest` in `main.go`)

The transfer loop interacts with the network through `conn.ReadFrom` on a
dedicated UDP socket with a read deadline.  Each call yields one of: a
timeout, a received datagram, or another read error; a run of the loop is
therefore driven by a schedule of such events.  `conn.ReadFrom(ackBuf)` with a
4-byte buffer truncates the datagram, so `n = min (length, 4)` and the `n != 4`
check in the source discards exactly the datagrams shorter than 4 bytes.
A finite schedule describes a window of network activity; once it is
exhausted, every further read times out (a silent network), so the loop sends
the packet once per remaining retry and exits exhausted. -/

def BlockSize : Nat := 512
def MaxRetries : Nat := 3

/-- One outcome of `conn.ReadFrom` during the ack wait. -/
inductive NetEvent
  | timeout
  | datagram (d : List Nat)
  | recvError
deriving DecidableEq, Repr

/-- Result of the `sendLoop` in `serveReadRequest`. -/
inductive SendResult
  | acked
  | exhausted
  | aborted
deriving DecidableEq, Repr

/-- The labelled `sendLoop` of `serveReadRequest`: while `retries < MaxRetries`,
write the data packet, then wait.  A timeout increments `retries`; a non-timeout
read error returns (aborting the transfer); a datagram shorter than 4 bytes, or
one that fails `ParseACK`, or whose block number differs from `block`, is
discarded by `continue` (back to the write, `retries` unchanged); a matching
ack breaks out.  Returns the packets written, the result, and the unconsumed
schedule. -/
def sendLoop (block : Nat) (pkt : List Nat) :
    Nat → List NetEvent → List (List Nat) × SendResult × List NetEvent
  | retries, sched =>
    if retries ≥ MaxRetries then ([], .exhausted, sched)
    else
      match sched with
      | [] => (List.replicate (MaxRetries - retries) pkt, .exhausted, [])
      | ev :: rest =>
        match ev with
        | .timeout =>
          let r := sendLoop block pkt (retries + 1) rest
          (pkt :: r.1, r.2)
        | .recvError => ([pkt], .aborted, rest)
        | .datagram d =>
          if d.length < 4 then
            let r := sendLoop block pkt retries rest
            (pkt :: r.1, r.2)
          else
            match parseACK (d.take 4) with
            | .ok a =>
              if a.block = block then ([pkt], .acked, rest)
              else
                let r := sendLoop block pkt retries rest
                (pkt :: r.1, r.2)
            | .error _ =>
              let r := sendLoop block pkt retries rest
              (pkt :: r.1, r.2)

/-- Terminal outcome of the transfer loop. -/
inductive Outcome
  | completed
  | ackFailed
  | aborted
  | fuelOut
deriving DecidableEq, Repr

/-- The error message sent on retry exhaustion. -/
def noAckMsg : List Nat := strBytes "Transfer failed: no ACK"

/-- The outer `for` loop of `serveReadRequest`, from the point where the file
is open and `block` starts at 1.  `rest` is the unread suffix of the file;
`file.Read(buf)` on a 512-byte buffer yields `rest.take BlockSize` (empty at
end of file, which Go reports as `io.EOF` with `n = 0` — not an abort).  After
a matching ack, `block++` (a uint16, wrapping mod 65536) runs first and then
the `n < BlockSize` completion check, exactly as in the source.  `fuel` bounds
the recursion; `serveTransfer` supplies enough fuel that it is never hit.
Returns the packets sent, the outcome, and the final value of `block`. -/
def transferLoopF : Nat → List Nat → Nat → List NetEvent →
    List (List Nat) × Outcome × Nat
  | 0, _, block, _ => ([], .fuelOut, block)
  | fuel + 1, rest, block, sched =>
    let payload := rest.take BlockSize
    let pkt := packDATA block payload
    let r := sendLoop block pkt 0 sched
    match r.2.1 with
    | .aborted => (r.1, .aborted, block)
    | .acked =>
      let block' := (block + 1) % 65536
      if payload.length < BlockSize then (r.1, .completed, block')
      else
        let r2 := transferLoopF fuel (rest.drop BlockSize) block' r.2.2
        (r.1 ++ r2.1, r2.2)
    | .exhausted =>
      (r.1 ++ [packERROR ErrNotDefined noAckMsg], .ackFailed, block)

/-- A full transfer of `file` starting at block 1, with enough fuel for every
block (one recursion step per full 512-byte chunk). -/
def serveTransfer (file : List Nat) (sched : List NetEvent) :
    List (List Nat) × Outcome × Nat :=
  transferLoopF (file.length / BlockSize + 1) file 1 sched

/-- Refinement variant of `transferLoopF` following the spec's words for the
completion check ordering ("the short-block completion check runs before
block-number increment"): identical to `transferLoopF` except that the
`payload.length < BlockSize` check is performed before `block` is incremented,
so a completed run reports the un-incremented block counter. -/
def transferLoopSpecF : Nat → List Nat → Nat → List NetEvent →
    List (List Nat) × Outcome × Nat
  | 0, _, block, _ => ([], .fuelOut, block)
  | fuel + 1, rest, block, sched =>
    let payload := rest.take BlockSize
    let pkt := packDATA block payload
    let r := sendLoop block pkt 0 sched
    match r.2.1 with
    | .aborted => (r.1, .aborted, block)
    | .acked =>
      if payload.length < BlockSize then (r.1, .completed, block)
      else
        let block' := (block + 1) % 65536
        let r2 := transferLoopSpecF fuel (rest.drop BlockSize) block' r.2.2
        (r.1 ++ r2.1, r2.2)
    | .exhausted =>
      (r.1 ++ [packERROR ErrNotDefined noAckMsg], .ackFailed, block)

/-- The spec-ordered variant of `serveTransfer`. -/
def serveTransferSpec (file : List Nat) (sched : List NetEvent) :
    List (List Nat) × Outcome × Nat :=
  transferLoopSpecF (file.length / BlockSize + 1) file 1 sched

/-! ### Step-indexed view of the send loop, for liveness questions

`sendLoopStream` runs the same loop against an infinite stream of network
events, observing only whether it has returned within `fuel` iterations.
`none` means the loop is still running after `fuel` iterations. -/

/-- One-for-one step-indexed version of `sendLoop` over an event stream.
`i` is the index of the next event; returns `none` while still looping. -/
def sendLoopStream (block : Nat) (evs : Nat → NetEvent) :
    Nat → Nat → Nat → Option (SendResult × Nat)
  | 0, _, _ => none
  | fuel + 1, retries, i =>
    if retries ≥ MaxRetries then some (.exhausted, i)
    else
      match evs i with
      | .timeout => sendLoopStream block evs fuel (retries + 1) (i + 1)
      | .recvError => some (.aborted, i + 1)
      | .datagram d =>
        if d.length < 4 then sendLoopStream block evs fuel retries (i + 1)
        else
          match parseACK (d.take 4) with
          | .ok a =>
            if a.block = block then some (.acked, i + 1)
            else sendLoopStream block evs fuel retries (i + 1)
          | .error _ => sendLoopStream block evs fuel retries (i + 1)

/-- The send loop terminates on the stream `evs`: it returns within some
finite number of iterations. -/
def SendLoopTerminates (block : Nat) (evs : Nat → NetEvent) : Prop :=
  ∃ fuel r, sendLoopStream block evs fuel 0 0 = some r

/-- An adversarial stream: every read delivers a well-formed 4-byte ack
whose block number (0) never matches the outstanding block. -/
def staleAckStream : Nat → NetEvent :=
  fun _ => .datagram (packACK 0)

/-! ## Request validation and path containment (`serveReadRequest`, pre-transfer)

Go's `path/filepath` functions on Unix are purely lexical on `/`-separated
paths.  A path is embedded as its split on `/`: an absoluteness flag (leading
slash) plus the list of segments (which may contain `""`, `"."` and `".."` —
`Clean` removes them).  `filepath.Clean` is the textbook stack algorithm:
drop empty and `"."` segments, let `".."` pop a preceding real segment,
keep `".."` at the front of a relative path, and drop it at the root of an
absolute one.  `filepath.Join(a, b)` concatenates with a `/` and cleans, so
in segment form it cleans `a.segs ++ b.segs` under `a`'s absoluteness.
`filepath.Rel(base, targ)` for two absolute cleaned paths strips the longest
common segment suffix and prefixes one `".."` per remaining base segment
(it can only error when absoluteness differs or the cleaned base contains
`".."`, neither of which happens for the absolute, clean `BaseDir`). -/

/-- A file path as its `/`-split: absoluteness flag and segment list. -/
structure GoPath where
  abs : Bool
  segs : List String
deriving DecidableEq, Repr

/-- One step of `filepath.Clean`'s stack algorithm; `stack` holds the output
segments in reverse order. -/
def cleanStep (abs : Bool) (stack : List String) (s : String) : List String :=
  if s = "" ∨ s = "." then stack
  else if s = ".." then
    match stack with
    | [] => if abs then [] else [".."]
    | t :: rest => if t = ".." then ".." :: t :: rest else rest
  else s :: stack

/-- `filepath.Clean` on the segment list. -/
def goCleanSegs (abs : Bool) (segs : List String) : List String :=
  (segs.foldl (cleanStep abs) []).reverse

/-- `filepath.Clean`. -/
def goClean (p : GoPath) : GoPath :=
  ⟨p.abs, goCleanSegs p.abs p.segs⟩

/-- `filepath.Join a b = Clean(a + "/" + b)`: the second component's leading
slash, if any, dissolves into the separator. -/
def goJoin (a b : GoPath) : GoPath :=
  goClean ⟨a.abs, a.segs ++ b.segs⟩

/-- Length of the longest common segment run, as scanned by `filepath.Rel`. -/
def commonLen : List String → List String → Nat
  | a :: as, b :: bs => if a = b then commonLen as bs + 1 else 0
  | _, _ => 0

/-- `filepath.Rel base targ` for absolute cleaned inputs: one `".."` per
base segment beyond the common part, then the rest of the target. -/
def goRel (base targ : List String) : List String :=
  List.replicate (base.length - commonLen base targ) ".." ++
    targ.drop (commonLen base targ)

/-- `strings.HasPrefix(relPath, "..")` where `relPath` is the `/`-joined
string of `rel` (or `"."` when `rel` is empty): the joined string's first two
bytes are `'.' '.'` exactly when the first segment's are (a cleaned segment is
never `""` or `"."`, so the separator cannot contribute to the prefix). -/
def relEscapes (rel : List String) : Bool :=
  match rel with
  | [] => false
  | s :: _ =>
    match s.data with
    | '.' :: '.' :: _ => true
    | _ => false

/-- Result of the validation phase of `serveReadRequest`, up to `os.Open`. -/
inductive PreOutcome
  | sendErr (code : Nat) (msg : List Nat)
  | openFile (path : GoPath)
deriving DecidableEq, Repr

/-- The resolved target of a request: `filepath.Clean(filepath.Join(BaseDir,
filepath.Clean(rrq.Filename)))` from the source. -/
def resolvedTarget (baseDir : List String) (reqFilename : GoPath) : GoPath :=
  goClean (goJoin ⟨true, baseDir⟩ (goClean reqFilename))

/-- The pre-transfer phase of `serveReadRequest`: reject unknown modes with
`Error{NotDefined}`, resolve the filename against `BaseDir` (an absolute
path), reject when `filepath.Rel(BaseDir, resolved)` starts with `".."`
(`Error{AccessViolation, "Access denied"}`), otherwise proceed to `os.Open`
on the resolved path. -/
def serveReadPre (baseDir : List String) (reqFilename : GoPath)
    (mode : List Nat) : PreOutcome :=
  if mode ≠ ModeOctet ∧ mode ≠ ModeNetascii ∧ mode ≠ ModeMail then
    .sendErr ErrNotDefined (strBytes "Unsupported transfer mode")
  else
    let target := resolvedTarget baseDir reqFilename
    if relEscapes (goRel baseDir target.segs) then
      .sendErr ErrAccessViolation (strBytes "Access denied")
    else
      .openFile target

/-! ## Codec lemmas -/

theorem be16_u16be (v : Nat) (h : v < 65536) : be16 (v / 256 % 256) (v % 256) = v := by
  simp only [be16]
  omega

theorem findZero_append (xs ys : List Nat) (h : 0 ∉ xs) :
    findZero (xs ++ 0 :: ys) = some xs.length := by
  induction xs with
  | nil => simp [findZero]
  | cons a as ih =>
    have ha : ¬ a = 0 := fun hc => h (by simp [hc])
    have has : 0 ∉ as := fun hc => h (List.mem_cons_of_mem _ hc)
    simp [findZero, ha, ih has]

theorem unpackRQ_roundtrip (f m : List Nat) (hf : 0 ∉ f) (hm : 0 ∉ m) :
    unpackRQ ((0 : Nat) :: (1 : Nat) :: (f ++ 0 :: (m ++ [0]))) = .ok (f, m) := by
  have hlen : ((0 : Nat) :: (1 : Nat) :: (f ++ 0 :: (m ++ [0]))).length =
      f.length + m.length + 4 := by simp; omega
  have hdata : ((0 : Nat) :: (1 : Nat) :: (f ++ 0 :: (m ++ [0]))).drop 2 =
      f ++ 0 :: (m ++ [0]) := rfl
  have hfz : findZero (f ++ 0 :: (m ++ [0])) = some f.length := findZero_append f _ hf
  have hmz : findZero (m ++ [0]) = some m.length := by
    have := findZero_append m [] hm
    simpa using this
  have hdrop : (f ++ 0 :: (m ++ [0])).drop (f.length + 1) = m ++ [0] := by
    have : f ++ 0 :: (m ++ [0]) = (f ++ [0]) ++ (m ++ [0]) := by simp
    rw [this]
    have hl : f.length + 1 = (f ++ [0]).length := by simp
    rw [hl, List.drop_left]
  have htakef : (f ++ 0 :: (m ++ [0])).take f.length = f := by
    have : f ++ 0 :: (m ++ [0]) = f ++ (0 :: (m ++ [0])) := rfl
    rw [this, List.take_left]
  have htakem : (m ++ [0]).take m.length = m := by
    rw [List.take_left]
  simp only [unpackRQ, hlen, hdata, hfz, hdrop, htakef, htakem]
  have hnotshort : ¬ (f.length + m.length + 4 < 4) := by omega
  have hnotend : ¬ (f.length + 1 ≥ (f ++ 0 :: (m ++ [0])).length) := by simp
  simp [hnotshort, hnotend, hmz, htakem]

theorem isValidMode_no_nul (m : List Nat) (h : isValidMode m = true) : 0 ∉ m := by
  have : m = ModeNetascii ∨ m = ModeOctet ∨ m = ModeMail := by
    simpa [isValidMode] using h
  rcases this with h | h | h <;> subst h <;> decide

theorem parseACK_packACK (b : Nat) (hb : b < 65536) :
    parseACK ((packACK b).take 4) = .ok ⟨b⟩ := by
  have : (packACK b).take 4 = (0 : Nat) :: (4 : Nat) :: (b / 256 % 256) :: [b % 256] := rfl
  rw [this]
  simp [parseACK, be16, ACK]
  omega

/-- C1: Codec round-trip — for every valid message of each of the five kinds
(requests with a recognized mode and a NUL-free filename, data with block
`0..65535` and payload of length `≤ 512`, ack with block `0..65535`, error
with a NUL-free message), parsing the bytes produced by packing yields
exactly the original fields. -/
theorem c1_codec_roundtrip :
    (∀ f m, 0 ∉ f → isValidMode m = true →
      ∃ p, packRQ RRQ f m = some p ∧ parseRRQ p = .ok ⟨f, m⟩) ∧
    (∀ f m, 0 ∉ f → isValidMode m = true →
      ∃ p, packRQ WRQ f m = some p ∧ parseWRQ p = .ok ⟨f, m⟩) ∧
    (∀ b d, b < 65536 → d.length ≤ 512 →
      parseDATA (packDATA b d) = .ok ⟨b, d⟩) ∧
    (∀ b, b < 65536 → parseACK (packACK b) = .ok ⟨b⟩) ∧
    (∀ c s, c < 65536 → 0 ∉ s → parseERROR (packERROR c s) = .ok ⟨c, s⟩) := by
  refine ⟨?_, ?_, ?_, ?_, ?_⟩
  · intro f m hf hm
    refine ⟨u16be RRQ ++ f ++ [0] ++ m ++ [0], by simp [packRQ, hm], ?_⟩
    have hp : u16be RRQ ++ f ++ [0] ++ m ++ [0] =
        (0 : Nat) :: (1 : Nat) :: (f ++ 0 :: (m ++ [0])) := by
      simp [u16be, RRQ]
    rw [hp]
    have hm0 : 0 ∉ m := isValidMode_no_nul m hm
    simp [parseRRQ, be16, RRQ, unpackRQ_roundtrip f m hf hm0, Except.map]
  · intro f m hf hm
    refine ⟨u16be WRQ ++ f ++ [0] ++ m ++ [0], by simp [packRQ, hm], ?_⟩
    have hp : u16be WRQ ++ f ++ [0] ++ m ++ [0] =
        (0 : Nat) :: (2 : Nat) :: (f ++ 0 :: (m ++ [0])) := by
      simp [u16be, WRQ]
    rw [hp]
    have hm0 : 0 ∉ m := isValidMode_no_nul m hm
    have hu : unpackRQ ((0 : Nat) :: (2 : Nat) :: (f ++ 0 :: (m ++ [0]))) = .ok (f, m) := by
      have h1 := unpackRQ_roundtrip f m hf hm0
      simp only [unpackRQ] at h1 ⊢
      simpa using h1
    simp [parseWRQ, be16, WRQ, hu, Except.map]
  · intro b d hb _
    have hp : packDATA b d = (0 : Nat) :: (3 : Nat) :: (b / 256 % 256) :: (b % 256) :: d := rfl
    rw [hp]
    simp [parseDATA, be16, DATA]
    omega
  · intro b hb
    have hp : packACK b = ((0 : Nat) :: (4 : Nat) :: (b / 256 % 256) :: [b % 256]) := rfl
    rw [hp]
    simp [parseACK, be16, ACK]
    omega
  · intro c s hc _
    have hp : packERROR c s =
        (0 : Nat) :: (5 : Nat) :: (c / 256 % 256) :: (c % 256) :: (s ++ [0]) := rfl
    rw [hp]
    have hlen : ¬ (((0 : Nat) :: (5 : Nat) :: (c / 256 % 256) :: (c % 256) ::
        (s ++ [0])).length < 5) := by simp
    have hlast : ((0 : Nat) :: (5 : Nat) :: (c / 256 % 256) :: (c % 256) ::
        (s ++ [0])).getLast? = some 0 := by
      have : (0 : Nat) :: (5 : Nat) :: (c / 256 % 256) :: (c % 256) :: (s ++ [0]) =
          ((0 : Nat) :: (5 : Nat) :: (c / 256 % 256) :: (c % 256) :: s) ++ [0] := by simp
      rw [this, List.getLast?_concat]
    simp [parseERROR, hlen, hlast, be16, ERROR]
    rw [if_neg (by omega)]
    have hcv : c / 256 % 256 * 256 + c % 256 = c := by omega
    simp [hcv]

/-- Witness for C1 at concrete messages of each kind. -/
theorem c1_codec_roundtrip_witness :
    (∃ p, packRQ RRQ (strBytes "file") ModeNetascii = some p ∧
      parseRRQ p = .ok ⟨strBytes "file", ModeNetascii⟩) ∧
    (∃ p, packRQ WRQ (strBytes "file") ModeOctet = some p ∧
      parseWRQ p = .ok ⟨strBytes "file", ModeOctet⟩) ∧
    parseDATA (packDATA 42 [72, 105]) = .ok ⟨42, [72, 105]⟩ ∧
    parseACK (packACK 13) = .ok ⟨13⟩ ∧
    parseERROR (packERROR 2 (strBytes "Access violation")) =
      .ok ⟨2, strBytes "Access violation"⟩ :=
  ⟨c1_codec_roundtrip.1 (strBytes "file") ModeNetascii (by decide) (by decide),
   c1_codec_roundtrip.2.1 (strBytes "file") ModeOctet (by decide) (by decide),
   c1_codec_roundtrip.2.2.1 42 [72, 105] (by decide) (by decide),
   c1_codec_roundtrip.2.2.2.1 13 (by decide),
   c1_codec_roundtrip.2.2.2.2 2 (strBytes "Access violation") (by decide) (by decide)⟩


/-! ## Minimum-length and request well-formedness behaviour -/

theorem unpackRQ_with_trailer (a b : Nat) (f m junk : List Nat)
    (hf : 0 ∉ f) (hm : 0 ∉ m) :
    unpackRQ (a :: b :: (f ++ 0 :: (m ++ 0 :: junk))) = .ok (f, m) := by
  have hlen : (a :: b :: (f ++ 0 :: (m ++ 0 :: junk))).length =
      f.length + m.length + junk.length + 4 := by simp; omega
  have hdata : (a :: b :: (f ++ 0 :: (m ++ 0 :: junk))).drop 2 =
      f ++ 0 :: (m ++ 0 :: junk) := rfl
  have hfz : findZero (f ++ 0 :: (m ++ 0 :: junk)) = some f.length :=
    findZero_append f _ hf
  have hmz : findZero (m ++ 0 :: junk) = some m.length := findZero_append m _ hm
  have hdrop : (f ++ 0 :: (m ++ 0 :: junk)).drop (f.length + 1) = m ++ 0 :: junk := by
    have h1 : f ++ 0 :: (m ++ 0 :: junk) = (f ++ [0]) ++ (m ++ 0 :: junk) := by simp
    rw [h1]
    have hl : f.length + 1 = (f ++ [0]).length := by simp
    rw [hl, List.drop_left]
  have htakef : (f ++ 0 :: (m ++ 0 :: junk)).take f.length = f := by
    have h1 : f ++ 0 :: (m ++ 0 :: junk) = f ++ (0 :: (m ++ 0 :: junk)) := rfl
    rw [h1, List.take_left]
  have htakem : (m ++ 0 :: junk).take m.length = m := by
    have h1 : m ++ 0 :: junk = m ++ (0 :: junk) := rfl
    rw [h1, List.take_left]
  simp only [unpackRQ, hlen, hdata, hfz, hdrop, htakef, htakem]
  have hnotshort : ¬ (f.length + m.length + junk.length + 4 < 4) := by omega
  have hnotend : ¬ (f.length + 1 ≥ (f ++ 0 :: (m ++ 0 :: junk)).length) := by
    simp
  simp [hnotshort, hnotend, hmz, htakem]

/-- C7 counterexample: the claim says a 2-byte buffer fails with `TooShort`
regardless of its opcode bytes, but `ParseRRQ` checks the opcode first, so the
2-byte buffer `00 02` fails with `ErrInvalidOpcode`, not `ErrPacketTooShort`. -/
theorem c7_counterexample :
    parseRRQ [0, 2] = .error .invalidOpcode ∧
    TFTPErr.invalidOpcode ≠ TFTPErr.packetTooShort :=
  ⟨rfl, by decide⟩

/-- C7 (amended): `ParseDATA`/`ParseACK` reject any buffer shorter than 4
bytes, and `ParseERROR` any buffer shorter than 5, with `TooShort` before
looking at the opcode; `ParseRRQ` checks its opcode first, so a buffer shorter
than 2 bytes or with a non-RRQ tag fails with `InvalidOpcode`, and a
correct-opcode request buffer shorter than 4 bytes fails with `TooShort`. -/
theorem c7_min_length :
    (∀ p : List Nat, p.length < 4 → parseDATA p = .error .packetTooShort) ∧
    (∀ p : List Nat, p.length < 4 → parseACK p = .error .packetTooShort) ∧
    (∀ p : List Nat, p.length < 5 → parseERROR p = .error .packetTooShort) ∧
    (∀ t : List Nat, t.length < 2 →
      parseRRQ ((0 : Nat) :: (1 : Nat) :: t) = .error .packetTooShort) ∧
    (∀ p : List Nat, p.length < 2 → parseRRQ p = .error .invalidOpcode) := by
  refine ⟨?_, ?_, ?_, ?_, ?_⟩
  · intro p hp
    match p, hp with
    | [], _ => rfl
    | [_], _ => rfl
    | [_, _], _ => rfl
    | [_, _, _], _ => rfl
    | _ :: _ :: _ :: _ :: _, hp => simp only [List.length_cons] at hp; omega
  · intro p hp
    match p, hp with
    | [], _ => rfl
    | [_], _ => rfl
    | [_, _], _ => rfl
    | [_, _, _], _ => rfl
    | _ :: _ :: _ :: _ :: _, hp => simp only [List.length_cons] at hp; omega
  · intro p hp
    simp [parseERROR, hp]
  · intro t ht
    have h2 : t.length + 1 + 1 < 4 := by omega
    simp [parseRRQ, be16, RRQ, unpackRQ, h2, Except.map]
  · intro p hp
    match p, hp with
    | [], _ => rfl
    | [_], _ => rfl
    | _ :: _ :: _, hp => simp only [List.length_cons] at hp; omega

/-- Witness for C7's amended theorem at concrete short buffers. -/
theorem c7_min_length_witness :
    parseDATA [0, 3, 0] = .error .packetTooShort ∧
    parseACK [0, 4, 0] = .error .packetTooShort ∧
    parseERROR [0, 5, 0, 0] = .error .packetTooShort ∧
    parseRRQ [0, 1, 102] = .error .packetTooShort ∧
    parseRRQ [7] = .error .invalidOpcode :=
  ⟨c7_min_length.1 [0, 3, 0] (by decide),
   c7_min_length.2.1 [0, 4, 0] (by decide),
   c7_min_length.2.2.1 [0, 5, 0, 0] (by decide),
   c7_min_length.2.2.2.1 [102] (by decide),
   c7_min_length.2.2.2.2 [7] (by decide)⟩

/-- C8 counterexample: the claim says a request buffer with additional bytes
after the mode terminator is not accepted, but `unpackRQ` never checks for
trailing bytes: `00 01 · "f" · 00 · "octet" · 00 · 78` decodes successfully. -/
theorem c8_counterexample :
    parseRRQ [0, 1, 102, 0, 111, 99, 116, 101, 116, 0, 120] =
      .ok ⟨[102], [111, 99, 116, 101, 116]⟩ := rfl

/-- C8 (amended): request decoding requires a NUL terminating the filename, a
non-empty remainder, and a NUL terminating the mode, and cuts each field at
its first NUL — but it ignores everything after the mode terminator, so any
buffer extending a valid request encoding with trailing bytes also decodes
successfully (to the same fields). -/
theorem c8_request_decode (f m junk : List Nat) (hf : 0 ∉ f) (hm : 0 ∉ m) :
    parseRRQ ((0 : Nat) :: (1 : Nat) :: (f ++ 0 :: (m ++ 0 :: junk))) = .ok ⟨f, m⟩ := by
  simp [parseRRQ, be16, RRQ, unpackRQ_with_trailer 0 1 f m junk hf hm, Except.map]

/-- Witness for C8's amended theorem at a concrete trailing-garbage buffer. -/
theorem c8_request_decode_witness :
    parseRRQ ((0 : Nat) :: (1 : Nat) ::
      ([102] ++ 0 :: ([111, 99, 116, 101, 116] ++ 0 :: [120, 121]))) =
      .ok ⟨[102], [111, 99, 116, 101, 116]⟩ :=
  c8_request_decode [102] [111, 99, 116, 101, 116] [120, 121]
    (by decide) (by decide)

/-- C9: Encode totality — `PackDATA`, `PackACK` and `PackERROR` are total and
produce the framed packet of the expected size for every field value, while
`packRQ` reaches its panic exactly when the mode is not one of the three
recognized literals: it produces a packet precisely when `isValidMode` holds. -/
theorem c9_encode_totality :
    (∀ op f m, (packRQ op f m).isSome = isValidMode m) ∧
    (∀ b d, (packDATA b d).length = 4 + d.length) ∧
    (∀ b, (packACK b).length = 4) ∧
    (∀ c s, (packERROR c s).length = 4 + s.length + 1) := by
  refine ⟨?_, ?_, ?_, ?_⟩
  · intro op f m
    by_cases h : isValidMode m <;> simp [packRQ, h]
  · intro b d
    simp [packDATA, u16be]
    omega
  · intro b
    rfl
  · intro c s
    simp [packERROR, u16be]
    omega


/-! ## Path containment -/

theorem commonLen_le (a b : List String) : commonLen a b ≤ a.length := by
  induction a generalizing b with
  | nil => simp [commonLen]
  | cons x xs ih =>
    cases b with
    | nil => simp [commonLen]
    | cons y ys =>
      by_cases h : x = y <;> simp [commonLen, h]
      exact ih ys

theorem prefix_of_commonLen (a b : List String) (h : commonLen a b = a.length) :
    a <+: b := by
  induction a generalizing b with
  | nil => exact List.nil_prefix
  | cons x xs ih =>
    cases b with
    | nil => simp [commonLen] at h
    | cons y ys =>
      by_cases hxy : x = y
      · subst hxy
        simp [commonLen] at h
        exact (List.prefix_cons_inj x).mpr (ih ys h)
      · simp [commonLen, hxy] at h

theorem relEscapes_dotdot_cons (t : List String) : relEscapes (".." :: t) = true := rfl

theorem relEscapes_goRel (base targ : List String) (h : ¬ base <+: targ) :
    relEscapes (goRel base targ) = true := by
  have hle := commonLen_le base targ
  have hne : commonLen base targ ≠ base.length := fun he => h (prefix_of_commonLen base targ he)
  obtain ⟨k, hk⟩ : ∃ k, base.length - commonLen base targ = k + 1 :=
    ⟨base.length - commonLen base targ - 1, by omega⟩
  unfold goRel
  rw [hk, List.replicate_succ, List.cons_append, relEscapes_dotdot_cons]

/-- C5: Path containment — for every requested filename whose resolved path
(`Clean(Join(BaseDir, Clean(filename)))`) lies lexically outside the server
root (the root's segments are not a prefix of the resolved segments), and any
recognized transfer mode, the request is rejected with
`Error{AccessViolation, "Access denied"}` and no file open is attempted. -/
theorem c5_path_containment (baseDir : List String) (f : GoPath) (mode : List Nat)
    (hmode : mode = ModeOctet ∨ mode = ModeNetascii ∨ mode = ModeMail)
    (hout : ¬ baseDir <+: (resolvedTarget baseDir f).segs) :
    serveReadPre baseDir f mode = .sendErr ErrAccessViolation (strBytes "Access denied") := by
  have hcond : ¬ (mode ≠ ModeOctet ∧ mode ≠ ModeNetascii ∧ mode ≠ ModeMail) := by
    rintro ⟨h1, h2, h3⟩
    rcases hmode with h | h | h <;> [exact h1 h; exact h2 h; exact h3 h]
  unfold serveReadPre
  rw [if_neg hcond]
  simp only [relEscapes_goRel baseDir (resolvedTarget baseDir f).segs hout, if_pos]

/-- Witness for C5: the canonical escape `../../etc/passwd` against root
`/srv/tftp` resolves to `/etc/passwd`, outside the root, and is rejected. -/
theorem c5_path_containment_witness :
    (¬ (["srv", "tftp"] <+:
        (resolvedTarget ["srv", "tftp"] ⟨false, ["..", "..", "etc", "passwd"]⟩).segs)) ∧
    serveReadPre ["srv", "tftp"] ⟨false, ["..", "..", "etc", "passwd"]⟩ ModeOctet =
      .sendErr ErrAccessViolation (strBytes "Access denied") :=
  ⟨by decide,
   c5_path_containment ["srv", "tftp"] ⟨false, ["..", "..", "etc", "passwd"]⟩ ModeOctet
     (Or.inl rfl) (by decide)⟩


/-! ## Send-loop lemmas -/

/-- An event that the ack wait discards or retries on: a timeout, or a
datagram that is shorter than 4 bytes, fails `ParseACK`, or acknowledges a
block other than the outstanding one.  (A non-timeout read error is neither:
it aborts.) -/
def isNoMatchEv (block : Nat) : NetEvent → Bool
  | .timeout => true
  | .recvError => false
  | .datagram d =>
    if d.length < 4 then true
    else
      match parseACK (d.take 4) with
      | .ok a => decide (a.block ≠ block)
      | .error _ => true

theorem sendLoop_nil (block : Nat) (pkt : List Nat) (retries : Nat) :
    sendLoop block pkt retries [] =
      if retries ≥ MaxRetries then ([], .exhausted, [])
      else (List.replicate (MaxRetries - retries) pkt, .exhausted, []) := rfl

theorem sendLoop_cons (block : Nat) (pkt : List Nat) (retries : Nat)
    (ev : NetEvent) (rest : List NetEvent) :
    sendLoop block pkt retries (ev :: rest) =
      if retries ≥ MaxRetries then ([], .exhausted, ev :: rest)
      else
        match ev with
        | .timeout =>
          let r := sendLoop block pkt (retries + 1) rest
          (pkt :: r.1, r.2)
        | .recvError => ([pkt], .aborted, rest)
        | .datagram d =>
          if d.length < 4 then
            let r := sendLoop block pkt retries rest
            (pkt :: r.1, r.2)
          else
            match parseACK (d.take 4) with
            | .ok a =>
              if a.block = block then ([pkt], .acked, rest)
              else
                let r := sendLoop block pkt retries rest
                (pkt :: r.1, r.2)
            | .error _ =>
              let r := sendLoop block pkt retries rest
              (pkt :: r.1, r.2) := rfl

theorem sendLoop_matching (block : Nat) (pkt : List Nat) (retries : Nat)
    (rest : List NetEvent) (hb : block < 65536) (hr : retries < MaxRetries) :
    sendLoop block pkt retries (.datagram (packACK block) :: rest) =
      ([pkt], .acked, rest) := by
  have hnr : ¬ (retries ≥ MaxRetries) := by omega
  have hlen : ¬ ((packACK block).length < 4) := by
    have h4 : (packACK block).length = 4 := rfl
    omega
  rw [sendLoop_cons, if_neg hnr]
  simp [hlen, parseACK_packACK block hb]

theorem sendLoop_noMatch (block : Nat) (pkt : List Nat) (sched : List NetEvent)
    (h : ∀ ev ∈ sched, isNoMatchEv block ev = true) (retries : Nat) :
    (sendLoop block pkt retries sched).2.1 = .exhausted ∧
    (∀ q ∈ (sendLoop block pkt retries sched).1, q = pkt) := by
  induction sched generalizing retries with
  | nil =>
    rw [sendLoop_nil]
    by_cases hr : retries ≥ MaxRetries
    · rw [if_pos hr]
      exact ⟨rfl, by intro q hq; simp at hq⟩
    · rw [if_neg hr]
      refine ⟨rfl, ?_⟩
      intro q hq
      exact List.eq_of_mem_replicate hq
  | cons ev rest ih =>
    have hev : isNoMatchEv block ev = true := h ev (List.mem_cons_self ev rest)
    have hrest : ∀ e ∈ rest, isNoMatchEv block e = true :=
      fun e he => h e (List.mem_cons_of_mem ev he)
    rw [sendLoop_cons]
    by_cases hr : retries ≥ MaxRetries
    · simp [hr]
    · rw [if_neg hr]
      cases ev with
      | timeout =>
        have ht := ih hrest (retries + 1)
        refine ⟨ht.1, ?_⟩
        intro q hq
        rcases List.mem_cons.mp hq with h1 | h1
        · exact h1
        · exact ht.2 q h1
      | recvError => simp [isNoMatchEv] at hev
      | datagram d =>
        by_cases hd : d.length < 4
        · have ht := ih hrest retries
          simp only [hd, if_true]
          refine ⟨ht.1, ?_⟩
          intro q hq
          rcases List.mem_cons.mp hq with h1 | h1
          · exact h1
          · exact ht.2 q h1
        · simp only [hd, if_false]
          cases hp : parseACK (d.take 4) with
          | ok a =>
            have hne : ¬ (a.block = block) := by
              simp only [isNoMatchEv, hd, if_false, hp] at hev
              simpa using hev
            have ht := ih hrest retries
            simp only [if_neg hne]
            refine ⟨ht.1, ?_⟩
            intro q hq
            rcases List.mem_cons.mp hq with h1 | h1
            · exact h1
            · exact ht.2 q h1
          | error e =>
            have ht := ih hrest retries
            refine ⟨ht.1, ?_⟩
            intro q hq
            rcases List.mem_cons.mp hq with h1 | h1
            · exact h1
            · exact ht.2 q h1

theorem packDATA_ne_packERROR (b : Nat) (p : List Nat) (c : Nat) (m : List Nat) :
    packDATA b p ≠ packERROR c m := by
  intro h
  have hd : (packDATA b p).get? 1 = some 3 := rfl
  have he : (packERROR c m).get? 1 = some 5 := rfl
  rw [h, he] at hd
  simp at hd


/-! ## Transfer-loop lemmas -/

theorem transferLoopF_zero (rest : List Nat) (block : Nat) (sched : List NetEvent) :
    transferLoopF 0 rest block sched = ([], .fuelOut, block) := rfl

theorem transferLoopF_succ (fuel : Nat) (rest : List Nat) (block : Nat)
    (sched : List NetEvent) :
    transferLoopF (fuel + 1) rest block sched =
      match (sendLoop block (packDATA block (rest.take BlockSize)) 0 sched).2.1 with
      | .aborted =>
        ((sendLoop block (packDATA block (rest.take BlockSize)) 0 sched).1, .aborted, block)
      | .acked =>
        if (rest.take BlockSize).length < BlockSize then
          ((sendLoop block (packDATA block (rest.take BlockSize)) 0 sched).1,
            .completed, (block + 1) % 65536)
        else
          ((sendLoop block (packDATA block (rest.take BlockSize)) 0 sched).1 ++
              (transferLoopF fuel (rest.drop BlockSize) ((block + 1) % 65536)
                (sendLoop block (packDATA block (rest.take BlockSize)) 0 sched).2.2).1,
            (transferLoopF fuel (rest.drop BlockSize) ((block + 1) % 65536)
              (sendLoop block (packDATA block (rest.take BlockSize)) 0 sched).2.2).2)
      | .exhausted =>
        ((sendLoop block (packDATA block (rest.take BlockSize)) 0 sched).1 ++
            [packERROR ErrNotDefined noAckMsg], .ackFailed, block) := rfl

theorem transferLoopSpecF_zero (rest : List Nat) (block : Nat) (sched : List NetEvent) :
    transferLoopSpecF 0 rest block sched = ([], .fuelOut, block) := rfl

theorem transferLoopSpecF_succ (fuel : Nat) (rest : List Nat) (block : Nat)
    (sched : List NetEvent) :
    transferLoopSpecF (fuel + 1) rest block sched =
      match (sendLoop block (packDATA block (rest.take BlockSize)) 0 sched).2.1 with
      | .aborted =>
        ((sendLoop block (packDATA block (rest.take BlockSize)) 0 sched).1, .aborted, block)
      | .acked =>
        if (rest.take BlockSize).length < BlockSize then
          ((sendLoop block (packDATA block (rest.take BlockSize)) 0 sched).1,
            .completed, block)
        else
          ((sendLoop block (packDATA block (rest.take BlockSize)) 0 sched).1 ++
              (transferLoopSpecF fuel (rest.drop BlockSize) ((block + 1) % 65536)
                (sendLoop block (packDATA block (rest.take BlockSize)) 0 sched).2.2).1,
            (transferLoopSpecF fuel (rest.drop BlockSize) ((block + 1) % 65536)
              (sendLoop block (packDATA block (rest.take BlockSize)) 0 sched).2.2).2)
      | .exhausted =>
        ((sendLoop block (packDATA block (rest.take BlockSize)) 0 sched).1 ++
            [packERROR ErrNotDefined noAckMsg], .ackFailed, block) := rfl

/-- If every event of the window is a timeout or a non-matching datagram, the
transfer step for the current block ends in `ackFailed`. -/
theorem transferLoop_noMatch_ackFailed (rest : List Nat) (block fuel : Nat)
    (sched : List NetEvent) (h : ∀ ev ∈ sched, isNoMatchEv block ev = true) :
    (transferLoopF (fuel + 1) rest block sched).2.1 = .ackFailed := by
  have hs := sendLoop_noMatch block (packDATA block (rest.take BlockSize)) sched h 0
  rcases hEq : sendLoop block (packDATA block (rest.take BlockSize)) 0 sched
    with ⟨tr, res, sched2⟩
  rw [hEq] at hs
  obtain ⟨hres, _⟩ := hs
  simp only at hres
  subst hres
  rw [transferLoopF_succ, hEq]

/-- C3: Retry exhaustion — if, for the currently outstanding block, every
event of the ack-wait window is a timeout or a non-matching datagram (no ack
that decodes correctly and carries the matching block number), the transfer
emits exactly one error packet `Error{NotDefined, "Transfer failed: no ACK"}`
as its final packet and terminates with `ackFailed`; every other emitted
packet is a (re)send of the current block's data, and no data for any further
block is ever sent. -/
theorem c3_retry_exhaustion (rest : List Nat) (block fuel : Nat)
    (sched : List NetEvent) (h : ∀ ev ∈ sched, isNoMatchEv block ev = true) :
    ∃ tr, transferLoopF (fuel + 1) rest block sched =
        (tr ++ [packERROR ErrNotDefined noAckMsg], .ackFailed, block) ∧
      (∀ q ∈ tr, q = packDATA block (rest.take BlockSize)) ∧
      (tr ++ [packERROR ErrNotDefined noAckMsg]).count
        (packERROR ErrNotDefined noAckMsg) = 1 := by
  have hs := sendLoop_noMatch block (packDATA block (rest.take BlockSize)) sched h 0
  rcases hEq : sendLoop block (packDATA block (rest.take BlockSize)) 0 sched
    with ⟨tr, res, sched2⟩
  rw [hEq] at hs
  obtain ⟨hres, htr⟩ := hs
  simp only at hres htr
  subst hres
  refine ⟨tr, ?_, htr, ?_⟩
  · rw [transferLoopF_succ, hEq]
  · have hnotin : packERROR ErrNotDefined noAckMsg ∉ tr := by
      intro hmem
      exact packDATA_ne_packERROR block (rest.take BlockSize) ErrNotDefined noAckMsg
        (htr _ hmem).symm
    rw [List.count_append, List.count_eq_zero.mpr hnotin]
    simp

/-- Witness for C3 at a concrete all-timeout window. -/
theorem c3_retry_exhaustion_witness :
    ∃ tr, transferLoopF (0 + 1) [] 1 [.timeout, .timeout, .timeout] =
        (tr ++ [packERROR ErrNotDefined noAckMsg], .ackFailed, 1) ∧
      (∀ q ∈ tr, q = packDATA 1 (([] : List Nat).take BlockSize)) ∧
      (tr ++ [packERROR ErrNotDefined noAckMsg]).count
        (packERROR ErrNotDefined noAckMsg) = 1 :=
  c3_retry_exhaustion [] 1 0 [.timeout, .timeout, .timeout] (by decide)

/-- C4: Ack mismatch tolerance — while awaiting the ack of `block` (retry
budget not yet exhausted), a received datagram that is shorter than 4 bytes,
or fails to decode as an ack, or decodes with a block number different from
`block`, is discarded: the loop re-sends the data packet and continues the
wait with the same retry counter and the same block number. -/
theorem c4_ack_mismatch (block retries : Nat) (d pkt : List Nat)
    (rest : List NetEvent) (hr : retries < MaxRetries)
    (hd : isNoMatchEv block (.datagram d) = true) :
    sendLoop block pkt retries (.datagram d :: rest) =
      (pkt :: (sendLoop block pkt retries rest).1,
       (sendLoop block pkt retries rest).2.1,
       (sendLoop block pkt retries rest).2.2) := by
  rw [sendLoop_cons, if_neg (by omega)]
  by_cases h4 : d.length < 4
  · simp [h4]
  · simp only [h4, if_false]
    cases hp : parseACK (d.take 4) with
    | ok a =>
      have hne : ¬ (a.block = block) := by
        simp only [isNoMatchEv, h4, if_false, hp] at hd
        simpa using hd
      simp [hp, hne]
    | error e => simp [hp]

/-- Witness for C4: a stale ack for block 1 while awaiting block 2. -/
theorem c4_ack_mismatch_witness :
    sendLoop 2 [] 0 (.datagram (packACK 1) :: []) =
      ([] :: (sendLoop 2 [] 0 []).1,
       (sendLoop 2 [] 0 []).2.1,
       (sendLoop 2 [] 0 []).2.2) :=
  c4_ack_mismatch 2 0 (packACK 1) [] [] (by decide) (by decide)


/-! ## Liveness of the ack wait -/

theorem sendLoopStream_succ (block : Nat) (evs : Nat → NetEvent)
    (fuel retries i : Nat) :
    sendLoopStream block evs (fuel + 1) retries i =
      if retries ≥ MaxRetries then some (.exhausted, i)
      else
        match evs i with
        | .timeout => sendLoopStream block evs fuel (retries + 1) (i + 1)
        | .recvError => some (.aborted, i + 1)
        | .datagram d =>
          if d.length < 4 then sendLoopStream block evs fuel retries (i + 1)
          else
            match parseACK (d.take 4) with
            | .ok a =>
              if a.block = block then some (.acked, i + 1)
              else sendLoopStream block evs fuel retries (i + 1)
            | .error _ => sendLoopStream block evs fuel retries (i + 1) := rfl

theorem sendLoopStream_stale (fuel : Nat) :
    ∀ i, sendLoopStream 1 staleAckStream fuel 0 i = none := by
  induction fuel with
  | zero => intro i; rfl
  | succ n ih =>
    intro i
    rw [sendLoopStream_succ]
    have h0 : ¬ ((0 : Nat) ≥ MaxRetries) := by decide
    rw [if_neg h0]
    exact ih (i + 1)

/-- C6 counterexample: an adversarial stream that delivers, before every
timeout would fire, a well-formed 4-byte ack for a block that never matches
keeps the send/await-ack loop running forever — each discarded datagram
triggers a resend and a fresh bounded wait while consuming no retry, so the
loop never ends after any number of iterations. -/
theorem c6_counterexample : ¬ SendLoopTerminates 1 staleAckStream := by
  rintro ⟨fuel, r, hr⟩
  rw [sendLoopStream_stale fuel 0] at hr
  cases hr

/-- C6 (amended): on any finite window of network events the loop terminates
(the embedding is total) with a matching ack, an abort, or exhaustion, and the
events it consumes include at most `MaxRetries - retries` timeouts — timeout
cycles are bounded; but a discarded non-matching datagram consumes an event
without consuming a retry, so it does prolong the loop (see the
counterexample for the unbounded adversarial stream). -/
theorem c6_bounded_timeouts (block : Nat) (pkt : List Nat) (retries : Nat)
    (sched : List NetEvent) :
    ∃ k, k ≤ sched.length ∧
      (sendLoop block pkt retries sched).2.2 = sched.drop k ∧
      (sched.take k).countP (fun ev => ev == NetEvent.timeout) ≤
        MaxRetries - retries := by
  induction sched generalizing retries with
  | nil =>
    refine ⟨0, by simp, ?_, by simp⟩
    rw [sendLoop_nil]
    by_cases hr : retries ≥ MaxRetries <;> simp [hr]
  | cons ev rest ih =>
    by_cases hr : retries ≥ MaxRetries
    · refine ⟨0, by simp, ?_, ?_⟩
      · rw [sendLoop_cons, if_pos hr]
        rfl
      · simp
    · cases ev with
      | timeout =>
        obtain ⟨k, hkle, hkdrop, hkcnt⟩ := ih (retries + 1)
        refine ⟨k + 1, by simp; omega, ?_, ?_⟩
        · rw [sendLoop_cons, if_neg hr]
          simpa using hkdrop
        · rw [List.take_succ_cons, List.countP_cons]
          simp only [beq_self_eq_true, if_true]
          omega
      | recvError =>
        refine ⟨1, by simp, ?_, ?_⟩
        · rw [sendLoop_cons, if_neg hr]
          rfl
        · simp [List.countP_cons, show ((NetEvent.recvError == NetEvent.timeout) = false) from rfl]
      | datagram d =>
        by_cases h4 : d.length < 4
        · obtain ⟨k, hkle, hkdrop, hkcnt⟩ := ih retries
          refine ⟨k + 1, by simp; omega, ?_, ?_⟩
          · rw [sendLoop_cons, if_neg hr]
            simp only [h4, if_true]
            simpa using hkdrop
          · rw [List.take_succ_cons, List.countP_cons]
            simp only [show ((NetEvent.datagram d == NetEvent.timeout) = false) from rfl]
            simpa using hkcnt
        · cases hp : parseACK (d.take 4) with
          | ok a =>
            by_cases hb : a.block = block
            · refine ⟨1, by simp, ?_, ?_⟩
              · rw [sendLoop_cons, if_neg hr]
                simp [h4, hp, hb]
              · simp
            · obtain ⟨k, hkle, hkdrop, hkcnt⟩ := ih retries
              refine ⟨k + 1, by simp; omega, ?_, ?_⟩
              · rw [sendLoop_cons, if_neg hr]
                simp only [h4, if_false, hp, hb]
                simpa using hkdrop
              · rw [List.take_succ_cons, List.countP_cons]
                simp only [show ((NetEvent.datagram d == NetEvent.timeout) = false) from rfl]
                simpa using hkcnt
          | error e =>
            obtain ⟨k, hkle, hkdrop, hkcnt⟩ := ih retries
            refine ⟨k + 1, by simp; omega, ?_, ?_⟩
            · rw [sendLoop_cons, if_neg hr]
              simp only [h4, if_false, hp]
              simpa using hkdrop
            · rw [List.take_succ_cons, List.countP_cons]
              simp only [show ((NetEvent.datagram d == NetEvent.timeout) = false) from rfl]
              simpa using hkcnt


/-! ## Completion-check ordering -/

/-- C10 counterexample: the source increments `block` before the short-block
completion check, not after — visible in the final counter: for the empty
file the code's run completes with counter 2, while the spec-ordered variant
(check before increment) would complete with counter 1. -/
theorem c10_counterexample :
    (serveTransfer [] [.datagram (packACK 1)]).2.2 = 2 ∧
    (serveTransferSpec [] [.datagram (packACK 1)]).2.2 = 1 ∧
    (serveTransfer [] [.datagram (packACK 1)]).2.1 = Outcome.completed :=
  ⟨rfl, rfl, rfl⟩

/-- C10 (amended): the short-block completion check runs after the matching
ack for the just-sent block and after (not before) the `block++` increment;
the two orderings are observationally equivalent — identical packet traces
and outcomes for every file, block and schedule (only the dead final counter
differs) — and completion stays ack-gated: a window with no matching ack for
the outstanding block never completes. -/
theorem c10_ordering :
    (∀ fuel rest block sched,
      (transferLoopF fuel rest block sched).1 =
        (transferLoopSpecF fuel rest block sched).1 ∧
      (transferLoopF fuel rest block sched).2.1 =
        (transferLoopSpecF fuel rest block sched).2.1) ∧
    (∀ fuel rest block sched, (∀ ev ∈ sched, isNoMatchEv block ev = true) →
      (transferLoopF (fuel + 1) rest block sched).2.1 = .ackFailed) := by
  constructor
  · intro fuel
    induction fuel with
    | zero => intro rest block sched; exact ⟨rfl, rfl⟩
    | succ n ih =>
      intro rest block sched
      rw [transferLoopF_succ, transferLoopSpecF_succ]
      rcases hEq : sendLoop block (packDATA block (rest.take BlockSize)) 0 sched
        with ⟨tr, res, sched2⟩
      cases res with
      | aborted => exact ⟨rfl, rfl⟩
      | exhausted => exact ⟨rfl, rfl⟩
      | acked =>
        by_cases hlt : (rest.take BlockSize).length < BlockSize
        · have hlt2 : rest.length < BlockSize := by simpa using hlt
          simp [hlt2]
        · have hlt2 : ¬ (rest.length < BlockSize) := by simpa using hlt
          have hih := ih (rest.drop BlockSize) ((block + 1) % 65536) sched2
          simp only [hlt, hlt2, if_false]
          exact ⟨by rw [hih.1], hih.2⟩
  · intro fuel rest block sched h
    exact transferLoop_noMatch_ackFailed rest block fuel sched h

/-- Witness for C10's amended theorem at a concrete file and schedule. -/
theorem c10_ordering_witness :
    ((transferLoopF 1 [7] 1 [.datagram (packACK 1)]).1 =
        (transferLoopSpecF 1 [7] 1 [.datagram (packACK 1)]).1 ∧
      (transferLoopF 1 [7] 1 [.datagram (packACK 1)]).2.1 =
        (transferLoopSpecF 1 [7] 1 [.datagram (packACK 1)]).2.1) ∧
    (transferLoopF (0 + 1) [7] 1 [.timeout, .timeout, .timeout]).2.1 = .ackFailed :=
  ⟨c10_ordering.1 1 [7] 1 [.datagram (packACK 1)],
   c10_ordering.2 0 [7] 1 [.timeout, .timeout, .timeout] (by decide)⟩


/-! ## Termination rule under a cooperative client -/

/-- A cooperative client: the schedule delivers, for each of `m` consecutive
blocks starting at `block`, exactly one matching ack. -/
def coopAcks (block m : Nat) : List NetEvent :=
  (List.range m).map (fun i => .datagram (packACK (block + i)))

theorem coopAcks_succ (block m : Nat) :
    coopAcks block (m + 1) = .datagram (packACK block) :: coopAcks (block + 1) m := by
  unfold coopAcks
  rw [List.range_succ_eq_map]
  simp only [List.map_cons, List.map_map, Nat.add_zero]
  congr 1
  apply List.map_congr_left
  intro a _
  simp only [Function.comp_apply]
  congr 2
  omega

theorem transferLoop_coop (k : Nat) :
    ∀ (rest : List Nat) (block : Nat),
      rest.length = BlockSize * k →
      block + k + 1 < 65536 →
      transferLoopF (k + 1) rest block (coopAcks block (k + 1)) =
        ((List.range (k + 1)).map
          (fun i => packDATA (block + i) ((rest.drop (BlockSize * i)).take BlockSize)),
         .completed, block + k + 1) := by
  induction k with
  | zero =>
    intro rest block hlen hb
    have hrest : rest = [] := List.length_eq_zero.mp (by simpa using hlen)
    subst hrest
    rw [show coopAcks block (0 + 1) = [NetEvent.datagram (packACK block)] from rfl]
    rw [transferLoopF_succ,
        sendLoop_matching block _ 0 [] (by omega) (by decide)]
    have hmod : (block + 1) % 65536 = block + 1 := Nat.mod_eq_of_lt (by omega)
    simp [hmod, BlockSize, List.range_succ]
  | succ n ihn =>
    intro rest block hlen hb
    rw [coopAcks_succ block (n + 1)]
    rw [transferLoopF_succ,
        sendLoop_matching block _ 0 _ (by omega) (by decide)]
    have hfull : ¬ ((rest.take BlockSize).length < BlockSize) := by
      rw [List.length_take]
      have : BlockSize * (n + 1) ≥ BlockSize := by
        simp [BlockSize]
      omega
    have hmod : (block + 1) % 65536 = block + 1 := Nat.mod_eq_of_lt (by omega)
    have hlen2 : (rest.drop BlockSize).length = BlockSize * n := by
      rw [List.length_drop, hlen]
      simp [BlockSize]
      omega
    have hih := ihn (rest.drop BlockSize) (block + 1) hlen2 (by omega)
    simp only [hfull, if_false, hmod, hih, List.singleton_append]
    have h1 : packDATA block (rest.take BlockSize) ::
        (List.range (n + 1)).map
          (fun i => packDATA (block + 1 + i)
            (((rest.drop BlockSize).drop (BlockSize * i)).take BlockSize)) =
        (List.range (n + 1 + 1)).map
          (fun i => packDATA (block + i) ((rest.drop (BlockSize * i)).take BlockSize)) := by
      conv_rhs => rw [List.range_succ_eq_map]
      rw [List.map_cons, List.map_map]
      congr 1
      apply List.map_congr_left
      intro a _
      have e1 : BlockSize + BlockSize * a = BlockSize * (a + 1) := by ring
      have e2 : block + 1 + a = block + (a + 1) := by omega
      simp only [Function.comp_apply, List.drop_drop, e1, e2]
    have h3 : block + 1 + n + 1 = block + (n + 1) + 1 := by omega
    rw [h1, h3]

/-- C2: Termination rule — serving a resource whose size is an exact multiple
of `BlockSize` (512) against a cooperative client sends the `k` full data
blocks `1..k` followed by one extra data block numbered `k+1` with empty
payload, then completes (each earlier block's payload being exactly 512
bytes); in particular a zero-byte resource (`k = 0`) produces exactly the one
empty data block numbered 1 and completes after its ack. -/
theorem c2_termination_rule (file : List Nat) (k : Nat)
    (hlen : file.length = BlockSize * k) (hk : k < 65534) :
    serveTransfer file (coopAcks 1 (k + 1)) =
      ((List.range k).map
         (fun i => packDATA (1 + i) ((file.drop (BlockSize * i)).take BlockSize))
        ++ [packDATA (1 + k) []],
       .completed, k + 2) ∧
    (∀ i, i < k → ((file.drop (BlockSize * i)).take BlockSize).length = BlockSize) := by
  constructor
  · have hfuel : file.length / BlockSize + 1 = k + 1 := by
      rw [hlen]
      simp [BlockSize]
    unfold serveTransfer
    rw [hfuel]
    rw [transferLoop_coop k file 1 hlen (by omega)]
    refine Prod.ext ?_ (Prod.ext rfl ?_)
    · show (List.range (k + 1)).map
          (fun i => packDATA (1 + i) ((file.drop (BlockSize * i)).take BlockSize)) = _
      rw [List.range_succ, List.map_append]
      congr 1
      simp only [List.map_cons, List.map_nil]
      congr 2
      have : file.drop (BlockSize * k) = [] := by
        apply List.drop_eq_nil_of_le
        omega
      rw [this]
      rfl
    · show 1 + k + 1 = k + 2
      omega
  · intro i hi
    rw [List.length_take, List.length_drop, hlen]
    simp only [BlockSize]
    omega

/-- Witness for C2 at the zero-byte resource. -/
theorem c2_termination_rule_witness :
    serveTransfer [] (coopAcks 1 (0 + 1)) =
      ((List.range 0).map
         (fun i => packDATA (1 + i) ((List.drop (BlockSize * i) ([] : List Nat)).take BlockSize))
        ++ [packDATA (1 + 0) []],
       .completed, 0 + 2) ∧
    (∀ i, i < 0 →
      ((List.drop (BlockSize * i) ([] : List Nat)).take BlockSize).length = BlockSize) :=
  c2_termination_rule [] 0 (by decide) (by decide)

end Tftp
